import Mathlib

/-!
Verification of the hotness-scoring core of `src/csrc/vtp_core.cpp`.

The C++ function `compute_hotness_scores` takes two Python dictionaries
(`access_counts`, `last_access_times`), a current time and a half life, and
returns a dictionary of exponentially decayed scores.  We embed it shallowly:

* a `py::dict` becomes an association list `List (String × ℝ)` (keys are
  opaque identifiers; iteration order is the list order, and `dict.contains` /
  subscript lookup become `List.lookup`);
* IEEE doubles become real numbers, `std::exp` becomes `Real.exp`, and the
  constant `M_LN2` becomes `Real.log 2`;
* the loop building the output dictionary becomes a `List.map` over
  `access_counts`, which is faithful because the loop writes exactly one
  entry per iterated key.
-/

namespace VtpCore

/-- The lookup of `last_access_times[key]` in the loop body of
`compute_hotness_scores`: `last_time` starts as `current_time` and is
overwritten when `last_access_times.contains(key)` holds. -/
def lookupLastTime (last_access_times : List (String × ℝ))
    (current_time : ℝ) (key : String) : ℝ :=
  match last_access_times.lookup key with
  | some t => t
  | none => current_time

/-- Shallow embedding of `compute_hotness_scores` from `src/csrc/vtp_core.cpp`.
Note that, exactly as in the source, there is no validation of `half_life`:
the decay constant `ln 2 / half_life` is formed unconditionally and the loop
always emits one score per key of `access_counts`. -/
noncomputable def compute_hotness_scores
    (access_counts last_access_times : List (String × ℝ))
    (current_time half_life : ℝ) : List (String × ℝ) :=
  let decay_constant : ℝ := Real.log 2 / half_life
  access_counts.map fun item =>
    let count := item.2
    let last_time := lookupLastTime last_access_times current_time item.1
    let dt0 := current_time - last_time
    let dt := if dt0 < 0 then (0 : ℝ) else dt0
    (item.1, count * Real.exp (-decay_constant * dt))

/-- The clamp `if (dt < 0) dt = 0;` of the source is the function
`max 0`. -/
theorem clamp_eq_max (x : ℝ) : (if x < 0 then (0 : ℝ) else x) = max 0 x := by
  rcases lt_or_le x 0 with h | h
  · simp [h, max_eq_left h.le]
  · simp [not_lt.mpr h, max_eq_right h]

/-- The list of keys of the output of `compute_hotness_scores` is exactly the
list of keys of `access_counts`. -/
theorem compute_keys (ac lat : List (String × ℝ)) (t hl : ℝ) :
    (compute_hotness_scores ac lat t hl).map Prod.fst = ac.map Prod.fst := by
  simp [compute_hotness_scores]

/-- Closed form of the score emitted for a key `k` of `access_counts` whose
(first) count is `c`: looking `k` up in the output yields
`c * exp (-(ln 2 / half_life) * max 0 (current_time - last_time))`. -/
theorem compute_lookup (ac lat : List (String × ℝ)) (t hl : ℝ) (k : String)
    (c : ℝ) (hc : ac.lookup k = some c) :
    (compute_hotness_scores ac lat t hl).lookup k =
      some (c * Real.exp (-(Real.log 2 / hl) *
        max 0 (t - lookupLastTime lat t k))) := by
  induction ac with
  | nil => simp [List.lookup] at hc
  | cons a rest ih =>
    rcases a with ⟨ka, va⟩
    by_cases hka : k = ka
    · subst hka
      simp [List.lookup] at hc
      subst hc
      simp only [compute_hotness_scores, List.map_cons, List.lookup_cons,
        beq_self_eq_true]
      rw [clamp_eq_max]
    · have hbeq : (k == ka) = false := beq_false_of_ne hka
      simp only [List.lookup, hbeq] at hc
      have := ih hc
      simpa [compute_hotness_scores, List.lookup, hbeq] using this

/-- C1: for every call to `compute_hotness_scores`, a key appears among the
output keys iff it appears among the keys of `access_counts`; keys present
only in `last_access_times` are never scored. -/
theorem hotness_keys_exact (ac lat : List (String × ℝ)) (t hl : ℝ)
    (k : String) :
    k ∈ (compute_hotness_scores ac lat t hl).map Prod.fst ↔
      k ∈ ac.map Prod.fst := by
  rw [compute_keys]

/-- C2: for every key `k` of `access_counts` and `halfLife > 0`, the emitted
score is `accessCounts[k] * exp (-(ln 2 / halfLife) * max 0 (currentTime -
lastTime))`, where `lastTime` is `lastAccessTimes[k]` when present and
`currentTime` otherwise. -/
theorem hotness_score_formula (ac lat : List (String × ℝ)) (t hl : ℝ)
    (k : String) (c : ℝ) (hhl : 0 < hl) (hc : ac.lookup k = some c) :
    (compute_hotness_scores ac lat t hl).lookup k =
      some (c * Real.exp (-(Real.log 2 / hl) *
        max 0 (t - lookupLastTime lat t k))) :=
  compute_lookup ac lat t hl k c hc

/-- Witness for C2 at a concrete input. -/
theorem hotness_score_formula_witness :
    (compute_hotness_scores [("a", 2)] [("a", 0)] 1 1).lookup "a" =
      some (2 * Real.exp (-(Real.log 2 / 1) *
        max 0 (1 - lookupLastTime [("a", 0)] 1 "a"))) :=
  hotness_score_formula [("a", 2)] [("a", 0)] 1 1 "a" 2 (by norm_num)
    (by simp [List.lookup])

/-- C3 counterexample: with `halfLife = 0` the code still emits a score
mapping — the key "a" is scored — so the operation does not fail fast with
`InvalidArgument` and a result mapping is produced. -/
theorem hotness_no_validation_cex :
    ("a" : String) ∈ (compute_hotness_scores [("a", 1)] [] 0 0).map Prod.fst := by
  simp [compute_hotness_scores]

/-- C3 amended: if `halfLife` is zero or negative, `compute_hotness_scores`
does not fail and performs no validation: the decay constant is formed
unconditionally and a full score mapping (one entry per key of
`access_counts`) is emitted. -/
theorem hotness_no_validation (ac lat : List (String × ℝ)) (t hl : ℝ)
    (hhl : hl ≤ 0) :
    (compute_hotness_scores ac lat t hl).map Prod.fst = ac.map Prod.fst :=
  compute_keys ac lat t hl

/-- Witness for the amended C3 at `halfLife = 0`. -/
theorem hotness_no_validation_witness :
    (compute_hotness_scores [("a", 1)] [] 0 0).map Prod.fst =
      ([("a", (1 : ℝ))]).map Prod.fst :=
  hotness_no_validation [("a", 1)] [] 0 0 (by norm_num)

/-- C4: for a key of `access_counts` that is absent from `last_access_times`,
or whose last-access time equals `current_time`, the emitted score is exactly
the access count (decay factor 1). -/
theorem hotness_default_no_decay (ac lat : List (String × ℝ)) (t hl : ℝ)
    (k : String) (c : ℝ) (hhl : 0 < hl) (hc : ac.lookup k = some c)
    (hlast : lat.lookup k = none ∨ lat.lookup k = some t) :
    (compute_hotness_scores ac lat t hl).lookup k = some c := by
  rw [compute_lookup ac lat t hl k c hc]
  have hL : lookupLastTime lat t k = t := by
    rcases hlast with h | h <;> simp [lookupLastTime, h]
  rw [hL]
  simp

/-- Witness for C4: the spec's concrete example, key "b" with count 4 and no
last-access entry scores exactly 4. -/
theorem hotness_default_no_decay_witness :
    (compute_hotness_scores [("b", 4)] [] 10 10).lookup "b" = some 4 :=
  hotness_default_no_decay [("b", 4)] [] 10 10 "b" 4 (by norm_num)
    (by simp [List.lookup]) (Or.inl rfl)

/-- C5: for a key of `access_counts` whose last-access time is in the future
(`lastAccessTimes[k] > currentTime`), the negative time delta is clamped to
zero and the emitted score is exactly the access count — never amplified. -/
theorem hotness_clamps_negative_dt (ac lat : List (String × ℝ)) (t hl : ℝ)
    (k : String) (c lt0 : ℝ) (hhl : 0 < hl) (hc : ac.lookup k = some c)
    (hlt : lat.lookup k = some lt0) (hskew : t < lt0) :
    (compute_hotness_scores ac lat t hl).lookup k = some c := by
  rw [compute_lookup ac lat t hl k c hc]
  have hL : lookupLastTime lat t k = lt0 := by simp [lookupLastTime, hlt]
  rw [hL]
  have hmax : max 0 (t - lt0) = 0 := max_eq_left (by linarith)
  rw [hmax]
  simp

/-- Witness for C5 at a concrete input with a future timestamp. -/
theorem hotness_clamps_negative_dt_witness :
    (compute_hotness_scores [("a", 3)] [("a", 5)] 3 2).lookup "a" = some 3 :=
  hotness_clamps_negative_dt [("a", 3)] [("a", 5)] 3 2 "a" 3 5 (by norm_num)
    (by simp [List.lookup]) (by simp [List.lookup]) (by norm_num)

/-- C6: if every value of `access_counts` is non-negative then every score in
the output of `compute_hotness_scores` is non-negative, for all inputs. -/
theorem hotness_nonneg (ac lat : List (String × ℝ)) (t hl : ℝ)
    (hpos : ∀ p ∈ ac, 0 ≤ p.2) :
    ∀ q ∈ compute_hotness_scores ac lat t hl, 0 ≤ q.2 := by
  intro q hq
  simp only [compute_hotness_scores, List.mem_map] at hq
  obtain ⟨p, hp, rfl⟩ := hq
  exact mul_nonneg (hpos p hp) (Real.exp_pos _).le

/-- Witness for C6: the single score produced for key "a" at a concrete
input is non-negative. -/
theorem hotness_nonneg_witness :
    0 ≤ (("a", (1 : ℝ) * Real.exp (-(Real.log 2 / 1) * (0 - -1))) :
      String × ℝ).2 :=
  hotness_nonneg [("a", 1)] [("a", -1)] 0 1 (by norm_num)
    ("a", (1 : ℝ) * Real.exp (-(Real.log 2 / 1) * (0 - -1)))
    (by norm_num [compute_hotness_scores, lookupLastTime, List.lookup])

/-- C7: `compute_hotness_scores` is deterministic — two calls on identical
inputs return identical outputs.  In this pure embedding the function is a
mathematical function of its arguments, so it also has no side effect on any
input. -/
theorem hotness_deterministic (ac₁ ac₂ lat₁ lat₂ : List (String × ℝ))
    (t₁ t₂ hl₁ hl₂ : ℝ) (hac : ac₁ = ac₂) (hlat : lat₁ = lat₂)
    (ht : t₁ = t₂) (hhl : hl₁ = hl₂) :
    compute_hotness_scores ac₁ lat₁ t₁ hl₁ =
      compute_hotness_scores ac₂ lat₂ t₂ hl₂ := by
  rw [hac, hlat, ht, hhl]

/-- Witness for C7 at a concrete input. -/
theorem hotness_deterministic_witness :
    compute_hotness_scores [("a", 1)] [] 0 1 =
      compute_hotness_scores [("a", 1)] [] 0 1 :=
  hotness_deterministic [("a", 1)] [("a", 1)] [] [] 0 0 1 1 rfl rfl rfl rfl

/-- C8 counterexample: with the (admitted) negative access count -1 and half
life 1, the emitted score strictly increases as the time delta grows from 0
to 1, so the claimed monotone decay fails without a sign restriction on the
access count. -/
theorem hotness_monotone_cex :
    ((compute_hotness_scores [("a", -1)] [("a", 0)] 0 1).lookup "a").getD 0 <
      ((compute_hotness_scores [("a", -1)] [("a", 0)] 1 1).lookup "a").getD 0 := by
  rw [compute_lookup [("a", -1)] [("a", 0)] 0 1 "a" (-1) (by simp [List.lookup]),
    compute_lookup [("a", -1)] [("a", 0)] 1 1 "a" (-1) (by simp [List.lookup])]
  have hL0 : lookupLastTime [("a", 0)] 0 "a" = 0 := by
    simp [lookupLastTime, List.lookup]
  have hL1 : lookupLastTime [("a", 0)] 1 "a" = 0 := by
    simp [lookupLastTime, List.lookup]
  rw [hL0, hL1]
  simp only [Option.getD_some, sub_zero, sub_self, div_one, max_self, mul_zero,
    Real.exp_zero, mul_one]
  have hm1 : max (0 : ℝ) 1 = 1 := max_eq_right (by norm_num)
  rw [hm1, mul_one]
  have hexp : Real.exp (-Real.log 2) < 1 :=
    Real.exp_lt_one_iff.mpr (neg_neg_of_pos (Real.log_pos one_lt_two))
  linarith

/-- C8 amended: for a fixed NON-NEGATIVE access count and fixed
`halfLife > 0`, the emitted score is non-increasing in the time delta:
evaluating the same maps at a later current time yields a score at most the
earlier one. -/
theorem hotness_monotone_decay (ac lat : List (String × ℝ)) (t₁ t₂ hl : ℝ)
    (k : String) (c : ℝ) (hhl : 0 < hl) (hc : ac.lookup k = some c)
    (hc0 : 0 ≤ c) (ht : t₁ ≤ t₂) :
    ((compute_hotness_scores ac lat t₂ hl).lookup k).getD 0 ≤
      ((compute_hotness_scores ac lat t₁ hl).lookup k).getD 0 := by
  rw [compute_lookup ac lat t₂ hl k c hc, compute_lookup ac lat t₁ hl k c hc]
  simp only [Option.getD_some]
  have hd : 0 ≤ Real.log 2 / hl := div_nonneg (Real.log_nonneg one_le_two) hhl.le
  cases hfind : lat.lookup k with
  | none =>
      have h1 : lookupLastTime lat t₁ k = t₁ := by simp [lookupLastTime, hfind]
      have h2 : lookupLastTime lat t₂ k = t₂ := by simp [lookupLastTime, hfind]
      rw [h1, h2]
      simp
  | some lt0 =>
      have h1 : lookupLastTime lat t₁ k = lt0 := by simp [lookupLastTime, hfind]
      have h2 : lookupLastTime lat t₂ k = lt0 := by simp [lookupLastTime, hfind]
      rw [h1, h2]
      have hmax : max 0 (t₁ - lt0) ≤ max 0 (t₂ - lt0) :=
        max_le_max le_rfl (by linarith)
      have hmul := mul_le_mul_of_nonneg_left hmax hd
      have hexp : Real.exp (-(Real.log 2 / hl) * max 0 (t₂ - lt0)) ≤
          Real.exp (-(Real.log 2 / hl) * max 0 (t₁ - lt0)) := by
        rw [Real.exp_le_exp]
        nlinarith
      exact mul_le_mul_of_nonneg_left hexp hc0

/-- Witness for the amended C8 at a concrete input. -/
theorem hotness_monotone_decay_witness :
    ((compute_hotness_scores [("a", 2)] [("a", 0)] 1 1).lookup "a").getD 0 ≤
      ((compute_hotness_scores [("a", 2)] [("a", 0)] 0 1).lookup "a").getD 0 :=
  hotness_monotone_decay [("a", 2)] [("a", 0)] 0 1 1 "a" 2 (by norm_num)
    (by simp [List.lookup]) (by norm_num) (by norm_num)

/-- C9: half-life property — with `lastAccessTime = t0` and
`currentTime = t0 + halfLife`, the emitted score is `count / 2` within 1e-9
relative error (in the real-number model the equality is exact). -/
theorem hotness_half_life (ac lat : List (String × ℝ)) (t0 hl : ℝ)
    (k : String) (c : ℝ) (hhl : 0 < hl) (hc : ac.lookup k = some c)
    (hlt : lat.lookup k = some t0) :
    |((compute_hotness_scores ac lat (t0 + hl) hl).lookup k).getD 0 - c / 2| ≤
      1e-9 * |c / 2| := by
  rw [compute_lookup ac lat (t0 + hl) hl k c hc]
  have hL : lookupLastTime lat (t0 + hl) k = t0 := by
    simp [lookupLastTime, hlt]
  rw [hL]
  simp only [Option.getD_some]
  have hmax : max 0 (t0 + hl - t0) = hl := by
    rw [add_sub_cancel_left]
    exact max_eq_right hhl.le
  rw [hmax]
  have harg : -(Real.log 2 / hl) * hl = -Real.log 2 := by
    field_simp
  rw [harg, Real.exp_neg, Real.exp_log two_pos]
  have hzero : c * (2 : ℝ)⁻¹ - c / 2 = 0 := by ring
  rw [hzero, abs_zero]
  positivity

/-- Witness for C9: the spec's concrete example, count 10 scored one half
life after its last access gives 5 within 1e-9 relative error. -/
theorem hotness_half_life_witness :
    |((compute_hotness_scores [("a", 10)] [("a", 0)] (0 + 10) 10).lookup
        "a").getD 0 - 10 / 2| ≤ 1e-9 * |10 / 2| :=
  hotness_half_life [("a", 10)] [("a", 0)] 0 10 "a" 10 (by norm_num)
    (by simp [List.lookup]) (by simp [List.lookup])

/-- C10: with a non-negative access count and positive half life, the
emitted score never exceeds the access count — the decay factor is at most
one because the clamped time delta is non-negative and the decay constant is
positive. -/
theorem hotness_upper_bound (ac lat : List (String × ℝ)) (t hl : ℝ)
    (k : String) (c : ℝ) (hhl : 0 < hl) (hc : ac.lookup k = some c)
    (hc0 : 0 ≤ c) :
    ((compute_hotness_scores ac lat t hl).lookup k).getD 0 ≤ c := by
  rw [compute_lookup ac lat t hl k c hc]
  simp only [Option.getD_some]
  have hd : 0 ≤ Real.log 2 / hl := div_nonneg (Real.log_nonneg one_le_two) hhl.le
  have hm : (0 : ℝ) ≤ max 0 (t - lookupLastTime lat t k) := le_max_left _ _
  have hexp : Real.exp (-(Real.log 2 / hl) *
      max 0 (t - lookupLastTime lat t k)) ≤ 1 := by
    rw [Real.exp_le_one_iff]
    nlinarith
  have := mul_le_mul_of_nonneg_left hexp hc0
  simpa using this

/-- Witness for C10 at a concrete input with a genuine positive delta. -/
theorem hotness_upper_bound_witness :
    ((compute_hotness_scores [("a", 7)] [("a", 0)] 3 1).lookup "a").getD 0 ≤ 7 :=
  hotness_upper_bound [("a", 7)] [("a", 0)] 3 1 "a" 7 (by norm_num)
    (by simp [List.lookup]) (by norm_num)

end VtpCore
